import Mathlib

/-!
GUI endpoint configuration (`lib/config/guiconfiguration.go`)

A shallow embedding of the methods of `GUIConfiguration` and of the Go
standard-library functions they call, followed by theorems about them.

Strings.
A Go `string` is a sequence of bytes.  A Go string is embedded as the Lean
`String` whose n-th character has the n-th byte as its code point, so an ASCII
literal is written as itself and `s.data` is the byte sequence.  Every
operation below looks at one character at a time and only ever compares it
with ASCII constants, exactly like the byte loops of the Go code.

Environment.
`os.Getenv` is passed explicitly as a function `getenv : String → String`;
as in Go it yields `""` for a variable that is not set.
-/

set_option autoImplicit false

/-! ## Package `strings` -/

namespace strings

/-- Go `strings.HasPrefix(s, prefix)`: `s` begins with `pre`. -/
def HasPrefix (s pre : String) : Bool :=
  pre.data.isPrefixOf s.data

/-- Substring search on byte lists: some suffix of the first list begins
with the second list. -/
def containsAux : List Char → List Char → Bool
  | [], sub => sub.isPrefixOf []
  | c :: cs, sub => sub.isPrefixOf (c :: cs) || containsAux cs sub

/-- Go `strings.Contains(s, substr)`: `substr` occurs within `s`. -/
def Contains (s substr : String) : Bool :=
  containsAux s.data substr.data

end strings

/-! ## Byte-level helpers -/

/-- Go slice expression `s[lo:]`. -/
def sliceFrom (s : String) (lo : Nat) : String := ⟨s.data.drop lo⟩

/-- Go slice expression `s[:hi]`. -/
def sliceTo (s : String) (hi : Nat) : String := ⟨s.data.take hi⟩

/-- Go slice expression `s[lo:hi]`. -/
def sliceFromTo (s : String) (lo hi : Nat) : String := ⟨(s.data.take hi).drop lo⟩

/-- Go comparison `lo <= c && c <= hi` on bytes. -/
def between (lo hi c : Char) : Bool :=
  decide (lo.toNat ≤ c.toNat) && decide (c.toNat ≤ hi.toNat)

namespace strings

/-- Go `strings.HasSuffix(s, suffix)`. -/
def HasSuffix (s suffix : String) : Bool :=
  suffix.data.reverse.isPrefixOf s.data.reverse

/-- Position of the first suffix of the list that begins with `sub`, counted
from `i`; `-1` when there is none. -/
def indexAux : List Char → List Char → Nat → Int
  | [], sub, i => if sub.isPrefixOf [] then (i : Int) else -1
  | c :: cs, sub, i =>
    if sub.isPrefixOf (c :: cs) then (i : Int) else indexAux cs sub (i + 1)

/-- Go `strings.Index(s, substr)`: index of the first instance of `substr`
in `s`, or `-1`. -/
def Index (s substr : String) : Int :=
  indexAux s.data substr.data 0

/-- Position of the last suffix of the list that begins with `sub`, counted
from `i`; `best` when there is none. -/
def lastIndexAux : List Char → List Char → Nat → Int → Int
  | [], sub, i, best => if sub.isPrefixOf [] then (i : Int) else best
  | c :: cs, sub, i, best =>
    lastIndexAux cs sub (i + 1) (if sub.isPrefixOf (c :: cs) then (i : Int) else best)

/-- Go `strings.LastIndex(s, substr)`: index of the last instance of `substr`
in `s`, or `-1`. -/
def LastIndex (s substr : String) : Int :=
  lastIndexAux s.data substr.data 0 (-1)

/-- Go `strings.Count(s, substr)` for a one-byte `substr`, given as the byte
`c`: the number of occurrences of `c` in `s`. -/
def Count (s : String) (c : Char) : Nat :=
  s.data.count c

/-- Go `strings.ToLower(s)` on ASCII text: the letters `A`..`Z` are mapped to
`a`..`z`, every other byte is kept. -/
def ToLower (s : String) : String :=
  ⟨s.data.map (fun c => if between 'A' 'Z' c then Char.ofNat (c.toNat + 32) else c)⟩

end strings

/-! ## Package `net/url`

The parser of the Go standard library (as of Go 1.13), which `Address` and
`Network` call through `url.Parse`, and the printer `URL.String`, which
`URL` calls.  An `error` result is `Except.error` with the message of the Go
error. -/

namespace url

/-- Go `type encoding int` with its constants. -/
inductive encoding where
  | encodePath
  | encodePathSegment
  | encodeHost
  | encodeZone
  | encodeUserPassword
  | encodeQueryComponent
  | encodeFragment
  deriving DecidableEq, Repr

open encoding

/-- Go `type Userinfo struct`. -/
structure Userinfo where
  username : String
  password : String
  passwordSet : Bool
  deriving DecidableEq, Repr

/-- Go `type URL struct`. -/
structure URL where
  Scheme : String
  Opaque : String
  User : Option Userinfo
  Host : String
  Path : String
  RawPath : String
  ForceQuery : Bool
  RawQuery : String
  Fragment : String
  deriving DecidableEq, Repr

/-- Go `new(URL)`: every field at its zero value. -/
def URL.new : URL :=
  { Scheme := "", Opaque := "", User := none, Host := "", Path := "",
    RawPath := "", ForceQuery := false, RawQuery := "", Fragment := "" }

/-- Go `func ishex(c byte) bool`. -/
def ishex (c : Char) : Bool :=
  between '0' '9' c || between 'a' 'f' c || between 'A' 'F' c

/-- Go `func unhex(c byte) byte`. -/
def unhex (c : Char) : Nat :=
  if between '0' '9' c then c.toNat - '0'.toNat
  else if between 'a' 'f' c then c.toNat - 'a'.toNat + 10
  else if between 'A' 'F' c then c.toNat - 'A'.toNat + 10
  else 0

/-- Go `func shouldEscape(c byte, mode encoding) bool`. -/
def shouldEscape (c : Char) (mode : encoding) : Bool :=
  if between 'a' 'z' c || between 'A' 'Z' c || between '0' '9' c then false
  else if (mode = encodeHost ∨ mode = encodeZone) ∧
      c ∈ ['!', '$', '&', '\'', '(', ')', '*', '+', ',', ';', '=', ':', '[', ']',
        '<', '>', '"'] then false
  else if c ∈ ['-', '_', '.', '~'] then false
  else if c ∈ ['$', '&', '+', ',', '/', ':', ';', '=', '?', '@'] then
    match mode with
    | encodePath => c = '?'
    | encodePathSegment => c = '/' || c = ';' || c = ',' || c = '?'
    | encodeUserPassword => c = '@' || c = '/' || c = '?' || c = ':'
    | encodeQueryComponent => true
    | encodeFragment => false
    | encodeHost => true  -- no case of the inner switch: falls to the final return
    | encodeZone => true  -- likewise
  else if mode = encodeFragment ∧ c ∈ ['!', '(', ')', '*'] then false
  else true

/-- The first loop of Go `unescape`: counts the `%` signs in `n`, records in
`hasPlus` whether a `+` has to be rewritten, and rejects malformed or
disallowed escapes. -/
def unescapeScan (mode : encoding) : List Char → Nat → Bool → Except String (Nat × Bool)
  | [], n, hasPlus => .ok (n, hasPlus)
  | c :: rest, n, hasPlus =>
    if c = '%' then
      match rest with
      | h1 :: h2 :: rest2 =>
        if !ishex h1 || !ishex h2 then
          .error ("invalid URL escape " ++ String.mk ((c :: rest).take 3))
        else if mode = encodeHost ∧ unhex h1 < 8 ∧ [c, h1, h2] ≠ "%25".data then
          .error ("invalid URL escape " ++ String.mk [c, h1, h2])
        else if mode = encodeZone ∧ [c, h1, h2] ≠ "%25".data ∧
            unhex h1 * 16 + unhex h2 ≠ ' '.toNat ∧
            shouldEscape (Char.ofNat (unhex h1 * 16 + unhex h2)) encodeHost then
          .error ("invalid URL escape " ++ String.mk [c, h1, h2])
        else
          unescapeScan mode rest2 (n + 1) hasPlus
      | _ => .error ("invalid URL escape " ++ String.mk ((c :: rest).take 3))
    else if c = '+' then
      unescapeScan mode rest n (mode = encodeQueryComponent)
    else if (mode = encodeHost ∨ mode = encodeZone) ∧ c.toNat < 0x80 ∧
        shouldEscape c encodeHost then
      .error ("invalid character " ++ String.mk [c] ++ " in host name")
    else
      unescapeScan mode rest n hasPlus

/-- The second loop of Go `unescape`: writes the decoded bytes. -/
def unescapeBuild (mode : encoding) : List Char → List Char
  | [] => []
  | c :: rest =>
    if c = '%' then
      match rest with
      | h1 :: h2 :: rest2 =>
        Char.ofNat (unhex h1 * 16 + unhex h2) :: unescapeBuild mode rest2
      | _ => []  -- not reached: the first loop has rejected a truncated escape
    else if c = '+' then
      (if mode = encodeQueryComponent then ' ' else '+') :: unescapeBuild mode rest
    else
      c :: unescapeBuild mode rest

/-- Go `func unescape(s string, mode encoding) (string, error)`. -/
def unescape (s : String) (mode : encoding) : Except String String :=
  match unescapeScan mode s.data 0 false with
  | .error e => .error e
  | .ok (n, hasPlus) =>
    if n = 0 ∧ hasPlus = false then .ok s
    else .ok ⟨unescapeBuild mode s.data⟩

/-- The loop of Go `escape`: a space becomes `+` in a query component, every
other byte that `shouldEscape` selects becomes `%XX` in upper-case hex. -/
def escapeBuild (mode : encoding) : List Char → List Char
  | [] => []
  | c :: rest =>
    if shouldEscape c mode then
      if c = ' ' ∧ mode = encodeQueryComponent then '+' :: escapeBuild mode rest
      else
        '%' :: "0123456789ABCDEF".data.getD (c.toNat / 16 % 16) '0' ::
          "0123456789ABCDEF".data.getD (c.toNat % 16) '0' :: escapeBuild mode rest
    else c :: escapeBuild mode rest

/-- Go `func escape(s string, mode encoding) string`. -/
def escape (s : String) (mode : encoding) : String :=
  ⟨escapeBuild mode s.data⟩

/-- Go `func stringContainsCTLByte(s string) bool`. -/
def stringContainsCTLByte (s : String) : Bool :=
  s.data.any (fun b => decide (b.toNat < ' '.toNat) || decide (b.toNat = 0x7f))

/-- The loop of Go `getscheme`, at index `i` with `cs = rawurl[i:]`. -/
def getschemeLoop (rawurl : String) : Nat → List Char → Except String (String × String)
  | _, [] => .ok ("", rawurl)
  | i, c :: cs =>
    if between 'a' 'z' c || between 'A' 'Z' c then
      getschemeLoop rawurl (i + 1) cs
    else if between '0' '9' c || c = '+' || c = '-' || c = '.' then
      if i = 0 then .ok ("", rawurl) else getschemeLoop rawurl (i + 1) cs
    else if c = ':' then
      if i = 0 then .error "missing protocol scheme"
      else .ok (sliceTo rawurl i, sliceFrom rawurl (i + 1))
    else
      .ok ("", rawurl)

/-- Go `func getscheme(rawurl string) (scheme, path string, err error)`. -/
def getscheme (rawurl : String) : Except String (String × String) :=
  getschemeLoop rawurl 0 rawurl.data

/-- Go `func split(s string, c string, cutc bool) (string, string)`. -/
def split (s c : String) (cutc : Bool) : String × String :=
  let i := strings.Index s c
  if i < 0 then (s, "")
  else if cutc then (sliceTo s i.toNat, sliceFrom s (i.toNat + c.length))
  else (sliceTo s i.toNat, sliceFrom s i.toNat)

/-- Go `func validOptionalPort(port string) bool`. -/
def validOptionalPort (port : String) : Bool :=
  match port.data with
  | [] => true
  | c :: rest => if c ≠ ':' then false else rest.all (fun b => between '0' '9' b)

/-- Go `func validUserinfo(s string) bool`. -/
def validUserinfo (s : String) : Bool :=
  s.data.all (fun r =>
    between 'A' 'Z' r || between 'a' 'z' r || between '0' '9' r ||
    decide (r ∈ ['-', '.', '_', ':', '~', '!', '$', '&', '\'', '(', ')', '*', '+',
      ',', ';', '=', '%', '@']))

/-- Go `func parseHost(host string) (string, error)`. -/
def parseHost (host : String) : Except String String :=
  if strings.HasPrefix host "[" then
    let i := strings.LastIndex host "]"
    if i < 0 then .error "missing ']' in host"
    else
      let colonPort := sliceFrom host (i.toNat + 1)
      if !validOptionalPort colonPort then
        .error ("invalid port " ++ colonPort ++ " after host")
      else
        let zone := strings.Index (sliceTo host i.toNat) "%25"
        if zone ≥ 0 then
          match unescape (sliceTo host zone.toNat) encodeHost with
          | .error e => .error e
          | .ok host1 =>
            match unescape (sliceFromTo host zone.toNat i.toNat) encodeZone with
            | .error e => .error e
            | .ok host2 =>
              match unescape (sliceFrom host i.toNat) encodeHost with
              | .error e => .error e
              | .ok host3 => .ok (host1 ++ host2 ++ host3)
        else unescape host encodeHost
  else
    let i := strings.LastIndex host ":"
    if i ≠ -1 ∧ !validOptionalPort (sliceFrom host i.toNat) then
      .error ("invalid port " ++ sliceFrom host i.toNat ++ " after host")
    else unescape host encodeHost

/-- Go `func parseAuthority(authority string) (user *Userinfo, host string,
err error)`. -/
def parseAuthority (authority : String) : Except String (Option Userinfo × String) :=
  let i := strings.LastIndex authority "@"
  match (if i < 0 then parseHost authority
         else parseHost (sliceFrom authority (i.toNat + 1))) with
  | .error e => .error e
  | .ok host =>
    if i < 0 then .ok (none, host)
    else
      let userinfo := sliceTo authority i.toNat
      if !validUserinfo userinfo then .error "net/url: invalid userinfo"
      else if !strings.Contains userinfo ":" then
        match unescape userinfo encodeUserPassword with
        | .error e => .error e
        | .ok userinfo1 =>
          .ok (some { username := userinfo1, password := "", passwordSet := false }, host)
      else
        let (username, password) := split userinfo ":" true
        match unescape username encodeUserPassword with
        | .error e => .error e
        | .ok username1 =>
          match unescape password encodeUserPassword with
          | .error e => .error e
          | .ok password1 =>
            .ok (some { username := username1, password := password1,
                        passwordSet := true }, host)

/-- Go `func (u *URL) setPath(p string) error`. -/
def URL.setPath (u : URL) (p : String) : Except String URL :=
  match unescape p encodePath with
  | .error e => .error e
  | .ok path =>
    if p = escape path encodePath then .ok { u with Path := path, RawPath := "" }
    else .ok { u with Path := path, RawPath := p }

/-- Go `func parse(rawurl string, viaRequest bool) (*URL, error)`. -/
def parse (rawurl : String) (viaRequest : Bool) : Except String URL :=
  if stringContainsCTLByte rawurl then
    .error "net/url: invalid control character in URL"
  else if rawurl = "" ∧ viaRequest then .error "empty url"
  else if rawurl = "*" then .ok { URL.new with Path := "*" }
  else
    match getscheme rawurl with
    | .error e => .error e
    | .ok (scheme, rest0) =>
      let url := { URL.new with Scheme := strings.ToLower scheme }
      let (rest, url) :=
        if strings.HasSuffix rest0 "?" ∧ strings.Count rest0 '?' = 1 then
          (sliceTo rest0 (rest0.length - 1), { url with ForceQuery := true })
        else
          let (r, q) := split rest0 "?" true
          (r, { url with RawQuery := q })
      if !strings.HasPrefix rest "/" ∧ url.Scheme ≠ "" then
        .ok { url with Opaque := rest }
      else if !strings.HasPrefix rest "/" ∧ viaRequest then
        .error "invalid URI for request"
      else if !strings.HasPrefix rest "/" ∧
          strings.Index rest ":" ≥ 0 ∧
          (strings.Index rest "/" < 0 ∨ strings.Index rest ":" < strings.Index rest "/") then
        .error "first path segment in URL cannot contain colon"
      else if (url.Scheme ≠ "" ∨ (!viaRequest ∧ !strings.HasPrefix rest "///")) ∧
          strings.HasPrefix rest "//" then
        let (authority, rest1) := split (sliceFrom rest 2) "/" false
        match parseAuthority authority with
        | .error e => .error e
        | .ok (user, host) => URL.setPath { url with User := user, Host := host } rest1
      else URL.setPath url rest

/-- Go `func Parse(rawurl string) (*URL, error)`. -/
def Parse (rawurl : String) : Except String URL :=
  let (u, frag) := split rawurl "#" true
  match parse u false with
  | .error e => .error ("parse " ++ u ++ ": " ++ e)
  | .ok url =>
    if frag = "" then .ok url
    else
      match unescape frag encodeFragment with
      | .error e => .error ("parse " ++ rawurl ++ ": " ++ e)
      | .ok f => .ok { url with Fragment := f }

/-- Go `func validEncodedPath(s string) bool`. -/
def validEncodedPath (s : String) : Bool :=
  s.data.all (fun c =>
    if c ∈ ['!', '$', '&', '\'', '(', ')', '*', '+', ',', ';', '=', ':', '@'] then true
    else if c ∈ ['[', ']'] then true
    else if c = '%' then true
    else !shouldEscape c encodePath)

/-- Go `func (u *URL) EscapedPath() string`. -/
def URL.EscapedPath (u : URL) : String :=
  let viaRawPath : Option String :=
    if u.RawPath ≠ "" ∧ validEncodedPath u.RawPath then
      match unescape u.RawPath encodePath with
      | .ok p => if p = u.Path then some u.RawPath else none
      | .error _ => none
    else none
  match viaRawPath with
  | some raw => raw
  | none => if u.Path = "*" then "*" else escape u.Path encodePath

/-- Go `func (u *Userinfo) String() string`, with `none` for the nil
pointer. -/
def Userinfo.String : Option Userinfo → String
  | none => ""
  | some u =>
    let s := escape u.username encodeUserPassword
    if u.passwordSet then s ++ ":" ++ escape u.password encodeUserPassword else s

/-- Go `func (u *URL) String() string`; `buf` is the `strings.Builder`, each
`let buf` one group of writes in the order of the Go code. -/
def URL.String (u : URL) : String :=
  let buf := ""
  let buf := if u.Scheme ≠ "" then buf ++ u.Scheme ++ ":" else buf
  let buf :=
    if u.Opaque ≠ "" then buf ++ u.Opaque
    else
      let buf :=
        if u.Scheme ≠ "" ∨ u.Host ≠ "" ∨ u.User ≠ none then
          let buf :=
            if u.Host ≠ "" ∨ u.Path ≠ "" ∨ u.User ≠ none then buf ++ "//" else buf
          let buf :=
            if u.User ≠ none then buf ++ Userinfo.String u.User ++ "@" else buf
          if u.Host ≠ "" then buf ++ escape u.Host encodeHost else buf
        else buf
      let path := u.EscapedPath
      let buf :=
        if path ≠ "" ∧ path.data.head? ≠ some '/' ∧ u.Host ≠ "" then buf ++ "/" else buf
      let buf :=
        if buf.length = 0 ∧ strings.Index path ":" > -1 ∧
            strings.Index (sliceTo path (strings.Index path ":").toNat) "/" = -1 then
          buf ++ "./"
        else buf
      buf ++ path
  let buf :=
    if u.ForceQuery ∨ u.RawQuery ≠ "" then buf ++ "?" ++ u.RawQuery else buf
  if u.Fragment ≠ "" then buf ++ "#" ++ escape u.Fragment encodeFragment else buf

end url

/-! ## Package `strconv` -/

namespace strconv

/-- The largest `uint64`. -/
def maxUint64 : Nat := 2 ^ 64 - 1

/-- Go `func lower(c byte) byte`: `c | ('x' - 'X')`. -/
def lower (c : Char) : Nat := c.toNat ||| ('x'.toNat - 'X'.toNat)

/-- The `switch` at the head of the digit loop of Go `ParseUint` for an
explicit base (an underscore is a separator only for base 0): the value of
the digit `c`, or `none` for a byte that is no digit in any base. -/
def digitVal (c : Char) : Option Nat :=
  if between '0' '9' c then some (c.toNat - '0'.toNat)
  else if 'a'.toNat ≤ lower c ∧ lower c ≤ 'z'.toNat then some (lower c - 'a'.toNat + 10)
  else none

/-- The digit loop of Go `ParseUint`, with `n` the `uint64` accumulated so
far. -/
def parseUintLoop (base cutoff maxVal : Nat) : List Char → Nat → Except String Nat
  | [], n => .ok n
  | c :: cs, n =>
    match digitVal c with
    | none => .error "invalid syntax"
    | some d =>
      if d ≥ base % 256 then .error "invalid syntax"
      else if n ≥ cutoff then .error "value out of range"
      else
        let n0 := n * base % 2 ^ 64
        let n1 := (n0 + d) % 2 ^ 64
        if n1 < n0 ∨ n1 > maxVal then .error "value out of range"
        else parseUintLoop base cutoff maxVal cs n1

/-- Go `func ParseUint(s string, base int, bitSize int) (uint64, error)` for
an explicit base.  The branch for `base == 0` (prefix detection, underscores)
is not embedded, `UnixSocketPermissions` always passes base 8; a base outside
`2..36` is answered with the error of an invalid base.  The number returned
next to an error is dropped, the caller does not read it. -/
def ParseUint (s : String) (base bitSize : Nat) : Except String Nat :=
  if s = "" then .error "invalid syntax"
  else if ¬ (2 ≤ base ∧ base ≤ 36) then .error "invalid base"
  else if bitSize > 64 then .error "invalid bit size"
  else
    let bitSize := if bitSize = 0 then 64 else bitSize
    let cutoff := maxUint64 / base + 1
    let maxVal := 2 ^ bitSize - 1
    parseUintLoop base cutoff maxVal s.data 0

end strconv

/-! ## The configuration record -/

/-- Modelled from the spec: the declaration of the type `AuthMode` is not part
of `guiconfiguration.go`; the data model lists the modes `None`, `Static` and
`LDAP`. -/
inductive AuthMode where
  | None
  | Static
  | LDAP
  deriving DecidableEq, Repr

/-- The constant `AuthModeLDAP` compared against in `IsAuthEnabled`. -/
abbrev AuthModeLDAP : AuthMode := AuthMode.LDAP

/-- Go `type GUIConfiguration struct`. -/
structure GUIConfiguration where
  Enabled : Bool
  RawAddress : String
  RawUnixSocketPermissions : String
  User : String
  Password : String
  AuthMode : AuthMode
  RawUseTLS : Bool
  APIKey : String
  InsecureAdminAccess : Bool
  Theme : String
  Debugging : Bool
  InsecureSkipHostCheck : Bool
  InsecureAllowFrameLoading : Bool
  deriving DecidableEq, Repr

/-- A record with every field at its Go zero value. -/
def GUIConfiguration.zero : GUIConfiguration :=
  { Enabled := false, RawAddress := "", RawUnixSocketPermissions := "",
    User := "", Password := "", AuthMode := AuthMode.None, RawUseTLS := false,
    APIKey := "", InsecureAdminAccess := false, Theme := "",
    Debugging := false, InsecureSkipHostCheck := false,
    InsecureAllowFrameLoading := false }

namespace GUIConfiguration

/-- Go `func (c GUIConfiguration) IsAuthEnabled() bool`. -/
def IsAuthEnabled (c : GUIConfiguration) : Bool :=
  c.AuthMode == AuthModeLDAP || (c.User.length > 0 && c.Password.length > 0)

/-- Go `func (c GUIConfiguration) IsOverridden() bool`. -/
def IsOverridden (_c : GUIConfiguration) (getenv : String → String) : Bool :=
  getenv "STGUIADDRESS" != ""

/-- Go `func (c GUIConfiguration) Address() string`. -/
def Address (c : GUIConfiguration) (getenv : String → String) : String :=
  let override := getenv "STGUIADDRESS"
  if override != "" then
    if strings.Contains override "/" then
      match url.Parse override with
      | .error _ => override
      | .ok url =>
        if strings.HasPrefix url.Scheme "unix" then url.Path
        else url.Host
    else override
  else c.RawAddress

/-- Go `os.ModePerm`, the Unix permission bits `0777`. -/
def os.ModePerm : Nat := 0o777

/-- Go `func (c GUIConfiguration) UnixSocketPermissions() os.FileMode`; the
conversion `os.FileMode(perm)` truncates the `uint64` to 32 bits. -/
def UnixSocketPermissions (c : GUIConfiguration) : Nat :=
  match strconv.ParseUint c.RawUnixSocketPermissions 8 32 with
  | .error _ => 0
  | .ok perm => (perm % 2 ^ 32) &&& os.ModePerm

/-- Go `func (c GUIConfiguration) Network() string`; `fromRawAddress` is the
tail of the function, reached when the first `if` does not return. -/
def Network (c : GUIConfiguration) (getenv : String → String) : String :=
  let override := getenv "STGUIADDRESS"
  let fromRawAddress := if strings.HasPrefix c.RawAddress "/" then "unix" else "tcp"
  if strings.Contains override "/" then
    match url.Parse override with
    | .error _ => "tcp"
    | .ok url =>
      if strings.HasPrefix url.Scheme "unix" then "unix" else fromRawAddress
  else fromRawAddress

/-- Go `func (c GUIConfiguration) UseTLS() bool`. -/
def UseTLS (c : GUIConfiguration) (getenv : String → String) : Bool :=
  let override := getenv "STGUIADDRESS"
  if override != "" then
    if strings.HasPrefix override "http" then
      strings.HasPrefix override "https:"
    else if strings.HasPrefix override "unix" then
      strings.HasPrefix override "unixs:"
    else
      c.RawUseTLS
  else
    c.RawUseTLS

/-- The host rewriting in Go `URL()`: the `if` / `else if` chain applied to
`u.Host`. -/
def urlHost (host : String) : String :=
  if strings.HasPrefix host ":" then
    "127.0.0.1" ++ host
  else if strings.HasPrefix host "0.0.0.0:" then
    "127.0.0.1" ++ sliceFrom host 7
  else if strings.HasPrefix host "[::]:" then
    "[::1]" ++ sliceFrom host 4
  else host

/-- Go `func (c GUIConfiguration) URL() string`. -/
def URL (c : GUIConfiguration) (getenv : String → String) : String :=
  if strings.HasPrefix c.RawAddress "/" then
    "unix://" ++ c.RawAddress
  else
    let u : url.URL :=
      { url.URL.new with Scheme := "http", Host := Address c getenv, Path := "/" }
    let u := if UseTLS c getenv then { u with Scheme := "https" } else u
    let u := { u with Host := urlHost u.Host }
    u.String

/-- Go `func (c GUIConfiguration) IsValidAPIKey(apiKey string) bool`: a
`switch` on `apiKey` whose cases are tried in order. -/
def IsValidAPIKey (c : GUIConfiguration) (getenv : String → String)
    (apiKey : String) : Bool :=
  if apiKey = "" then
    false
  else if apiKey = c.APIKey ∨ apiKey = getenv "STGUIAPIKEY" then
    true
  else
    false

/-- Go `func (c GUIConfiguration) Copy() GUIConfiguration`. -/
def Copy (c : GUIConfiguration) : GUIConfiguration := c

end GUIConfiguration

/-- An environment in which only `STGUIADDRESS` is set, to `v`. -/
def envAddress (v : String) : String → String :=
  fun name => if name = "STGUIADDRESS" then v else ""

/-- The environment with no variable set. -/
def envEmpty : String → String := fun _ => ""

/-! ## Notions of the specification -/

/-- The claim's "octal digit (0-7)". -/
def isOctalDigit (c : Char) : Bool := between '0' '7' c

/-- The claim's "base-8 value" of a string of octal digits, most significant
digit first. -/
def octalValue (s : String) : Nat :=
  s.data.foldl (fun v c => v * 8 + (c.toNat - '0'.toNat)) 0

/-- The claim's "bare socket path with no scheme", read as an absolute path:
a string that starts with one `/`, not with `//`. -/
def isBareSocketPath (s : String) : Bool :=
  strings.HasPrefix s "/" && !strings.HasPrefix s "//"

/-! ## Theorems -/

open GUIConfiguration

/-! ### Helper lemmas -/

theorem string_length_pos_iff (s : String) : s.length > 0 ↔ s ≠ "" := by
  show 0 < s.data.length ↔ s ≠ ""
  rw [List.length_pos, ne_eq, ne_eq, String.ext_iff]

theorem contains_slash_ne_empty (s : String) (h : strings.Contains s "/" = true) :
    s ≠ "" := by
  intro hs
  subst hs
  revert h
  decide

/-- C1: `IsValidAPIKey(k)` holds exactly when `k` is non-empty and equals the
configured `apiKey` or the value of `STGUIAPIKEY`; in particular the empty
candidate is rejected even when both of them are empty. -/
theorem isValidAPIKey_iff :
    (∀ (c : GUIConfiguration) (getenv : String → String) (k : String),
      IsValidAPIKey c getenv k = true ↔
        (k ≠ "" ∧ (k = c.APIKey ∨ k = getenv "STGUIAPIKEY"))) ∧
    (∀ (c : GUIConfiguration) (getenv : String → String),
      IsValidAPIKey c getenv "" = false) := by
  constructor
  · intro c getenv k
    unfold IsValidAPIKey
    by_cases hk : k = ""
    · simp [hk]
    · by_cases h : k = c.APIKey ∨ k = getenv "STGUIAPIKEY"
      · simp [hk, h]
      · simp [hk, h]
  · intro c getenv
    simp [IsValidAPIKey]

/-- C2: `IsAuthEnabled()` holds exactly when `authMode` is LDAP or both
`user` and `password` are non-empty; hence it holds for LDAP with both empty,
and fails for a non-LDAP mode with exactly one of the two set. -/
theorem isAuthEnabled_iff :
    (∀ c : GUIConfiguration,
      IsAuthEnabled c = true ↔
        (c.AuthMode = AuthMode.LDAP ∨ (c.User ≠ "" ∧ c.Password ≠ ""))) ∧
    (∀ c : GUIConfiguration, c.AuthMode = AuthMode.LDAP → c.User = "" →
      c.Password = "" → IsAuthEnabled c = true) ∧
    (∀ c : GUIConfiguration, c.AuthMode ≠ AuthMode.LDAP →
      (c.User = "" ∧ c.Password ≠ "") ∨ (c.User ≠ "" ∧ c.Password = "") →
      IsAuthEnabled c = false) := by
  have key : ∀ c : GUIConfiguration,
      IsAuthEnabled c = true ↔
        (c.AuthMode = AuthMode.LDAP ∨ (c.User ≠ "" ∧ c.Password ≠ "")) := by
    intro c
    unfold IsAuthEnabled AuthModeLDAP
    rw [Bool.or_eq_true, Bool.and_eq_true, beq_iff_eq, decide_eq_true_iff,
      decide_eq_true_iff, string_length_pos_iff, string_length_pos_iff]
  refine ⟨key, ?_, ?_⟩
  · intro c h _ _
    exact (key c).2 (Or.inl h)
  · intro c h hx
    rw [← Bool.not_eq_true, key c]
    rintro (h1 | ⟨hu, hp⟩)
    · exact h h1
    · rcases hx with ⟨hu0, _⟩ | ⟨_, hp0⟩
      · exact hu hu0
      · exact hp hp0

/-- C3: when `STGUIADDRESS` is unset or empty, equivalently when
`IsOverridden()` is false, `Address()` is `rawAddress` unchanged. -/
theorem address_without_override (c : GUIConfiguration) (getenv : String → String)
    (h : getenv "STGUIADDRESS" = "" ∨ IsOverridden c getenv = false) :
    Address c getenv = c.RawAddress := by
  have h0 : getenv "STGUIADDRESS" = "" := by
    rcases h with h | h
    · exact h
    · simpa [IsOverridden] using h
  simp [Address, h0]

theorem address_without_override_witness :
    IsOverridden { GUIConfiguration.zero with RawAddress := "127.0.0.1:8384" }
      envEmpty = false ∧
    Address { GUIConfiguration.zero with RawAddress := "127.0.0.1:8384" } envEmpty
      = "127.0.0.1:8384" :=
  ⟨by decide, address_without_override _ envEmpty (Or.inl rfl)⟩

/-- C4: a non-empty `STGUIADDRESS` without a `/` is returned by `Address()`
as it is, whatever the record holds. -/
theorem address_bare_override (c : GUIConfiguration) (getenv : String → String)
    (hne : getenv "STGUIADDRESS" ≠ "")
    (hslash : strings.Contains (getenv "STGUIADDRESS") "/" = false) :
    Address c getenv = getenv "STGUIADDRESS" := by
  simp [Address, hne, hslash]

theorem address_bare_override_witness :
    Address { GUIConfiguration.zero with RawAddress := "127.0.0.1:8384" }
      (envAddress "localhost:9000") = "localhost:9000" :=
  address_bare_override _ (envAddress "localhost:9000") (by decide) (by decide)

/-- C5: for a `STGUIADDRESS` that contains `/` and that `url.Parse` accepts,
`Address()` is the path of the parsed URL when its scheme starts with `unix`
and its host otherwise. -/
theorem address_url_override (c : GUIConfiguration) (getenv : String → String)
    (u : url.URL)
    (hslash : strings.Contains (getenv "STGUIADDRESS") "/" = true)
    (hparse : url.Parse (getenv "STGUIADDRESS") = .ok u) :
    Address c getenv = if strings.HasPrefix u.Scheme "unix" then u.Path else u.Host := by
  have hne := contains_slash_ne_empty _ hslash
  simp [Address, hne, hslash, hparse]

theorem address_url_override_witness :
    Address GUIConfiguration.zero (envAddress "https://203.0.113.5:9090")
      = "203.0.113.5:9090" ∧
    Address GUIConfiguration.zero (envAddress "unix:///tmp/sock") = "/tmp/sock" :=
  ⟨(address_url_override GUIConfiguration.zero (envAddress "https://203.0.113.5:9090")
      { url.URL.new with Scheme := "https", Host := "203.0.113.5:9090" }
      (by decide) rfl).trans (by decide),
   (address_url_override GUIConfiguration.zero (envAddress "unix:///tmp/sock")
      { url.URL.new with Scheme := "unix", Path := "/tmp/sock" }
      (by decide) rfl).trans (by decide)⟩

/-- C6: when `STGUIADDRESS` contains no `/` (in particular when it is unset
or empty), `Network()` is `"unix"` exactly when `rawAddress` starts with `/`
and `"tcp"` otherwise: such an override never changes the transport. -/
theorem network_bare_override (c : GUIConfiguration) (getenv : String → String)
    (hslash : strings.Contains (getenv "STGUIADDRESS") "/" = false) :
    (Network c getenv = "unix" ↔ strings.HasPrefix c.RawAddress "/" = true) ∧
    (strings.HasPrefix c.RawAddress "/" = false → Network c getenv = "tcp") ∧
    Network c getenv = Network c envEmpty := by
  have h0 : strings.Contains (envEmpty "STGUIADDRESS") "/" = false := by decide
  by_cases hraw : strings.HasPrefix c.RawAddress "/" = true
  · simp [Network, hslash, h0, hraw]
  · simp [Network, hslash, h0, hraw]

theorem network_bare_override_witness :
    Network { GUIConfiguration.zero with RawAddress := "/var/run/x.sock" } envEmpty
      = "unix" ∧
    Network { GUIConfiguration.zero with RawAddress := "127.0.0.1:8384" } envEmpty
      = "tcp" ∧
    Network { GUIConfiguration.zero with RawAddress := "127.0.0.1:8384" }
      (envAddress "unix.sock") = "tcp" :=
  ⟨(network_bare_override _ envEmpty (by decide)).1.2 (by decide),
   (network_bare_override _ envEmpty (by decide)).2.1 (by decide),
   (network_bare_override _ (envAddress "unix.sock") (by decide)).2.1 (by decide)⟩

/-- C7: for a `STGUIADDRESS` that contains `/`, that `url.Parse` accepts and
whose parsed scheme starts with `unix`, `Network()` is `"unix"` whatever
`rawAddress` is. -/
theorem network_unix_override (c : GUIConfiguration) (getenv : String → String)
    (u : url.URL)
    (hslash : strings.Contains (getenv "STGUIADDRESS") "/" = true)
    (hparse : url.Parse (getenv "STGUIADDRESS") = .ok u)
    (hscheme : strings.HasPrefix u.Scheme "unix" = true) :
    Network c getenv = "unix" := by
  simp [Network, hslash, hparse, hscheme]

theorem network_unix_override_witness :
    Network { GUIConfiguration.zero with RawAddress := "127.0.0.1:8384" }
      (envAddress "unix:///tmp/sock") = "unix" ∧
    Network { GUIConfiguration.zero with RawAddress := "127.0.0.1:8384" }
      (envAddress "unixs:///tmp/sock") = "unix" :=
  ⟨network_unix_override _ (envAddress "unix:///tmp/sock")
      { url.URL.new with Scheme := "unix", Path := "/tmp/sock" }
      (by decide) rfl (by decide),
   network_unix_override _ (envAddress "unixs:///tmp/sock")
      { url.URL.new with Scheme := "unixs", Path := "/tmp/sock" }
      (by decide) rfl (by decide)⟩

/-- C8: for a non-empty `STGUIADDRESS`: if it starts with `http`, `UseTLS()`
tells whether it starts with `https:`; otherwise, if it starts with `unix`,
`UseTLS()` tells whether it starts with `unixs:`.  `rawUseTLS` plays no part
in either case. -/
theorem useTLS_scheme_override (c : GUIConfiguration) (getenv : String → String)
    (hne : getenv "STGUIADDRESS" ≠ "") :
    (strings.HasPrefix (getenv "STGUIADDRESS") "http" = true →
      UseTLS c getenv = strings.HasPrefix (getenv "STGUIADDRESS") "https:") ∧
    (strings.HasPrefix (getenv "STGUIADDRESS") "http" = false →
      strings.HasPrefix (getenv "STGUIADDRESS") "unix" = true →
      UseTLS c getenv = strings.HasPrefix (getenv "STGUIADDRESS") "unixs:") := by
  constructor
  · intro h
    simp [UseTLS, hne, h]
  · intro h1 h2
    simp [UseTLS, hne, h1, h2]

theorem useTLS_scheme_override_witness :
    UseTLS { GUIConfiguration.zero with RawUseTLS := true } (envAddress "http://x")
      = false ∧
    UseTLS { GUIConfiguration.zero with RawUseTLS := false } (envAddress "https://x")
      = true ∧
    UseTLS { GUIConfiguration.zero with RawUseTLS := false }
      (envAddress "unixs:///tmp/sock") = true :=
  ⟨((useTLS_scheme_override _ (envAddress "http://x") (by decide)).1
      (by decide)).trans (by decide),
   ((useTLS_scheme_override _ (envAddress "https://x") (by decide)).1
      (by decide)).trans (by decide),
   ((useTLS_scheme_override _ (envAddress "unixs:///tmp/sock") (by decide)).2
      (by decide) (by decide)).trans (by decide)⟩

/-- C9: when `STGUIADDRESS` is empty, or starts with neither `http` nor
`unix`, `UseTLS()` is `rawUseTLS`. -/
theorem useTLS_fallthrough (c : GUIConfiguration) (getenv : String → String)
    (h : getenv "STGUIADDRESS" = "" ∨
      (strings.HasPrefix (getenv "STGUIADDRESS") "http" = false ∧
       strings.HasPrefix (getenv "STGUIADDRESS") "unix" = false)) :
    UseTLS c getenv = c.RawUseTLS := by
  rcases h with h | ⟨h1, h2⟩
  · simp [UseTLS, h]
  · simp [UseTLS, h1, h2]

theorem useTLS_fallthrough_witness :
    UseTLS { GUIConfiguration.zero with RawUseTLS := true } envEmpty = true ∧
    UseTLS { GUIConfiguration.zero with RawUseTLS := true }
      (envAddress "127.0.0.1:8080") = true :=
  ⟨useTLS_fallthrough _ envEmpty (Or.inl rfl),
   useTLS_fallthrough _ (envAddress "127.0.0.1:8080") (Or.inr ⟨by decide, by decide⟩)⟩

/-! ### `strconv.ParseUint` on octal digit strings -/

theorem octal_foldl_ge (cs : List Char) (n : Nat) :
    n ≤ cs.foldl (fun v c => v * 8 + (c.toNat - '0'.toNat)) n := by
  induction cs generalizing n with
  | nil => exact Nat.le_refl n
  | cons c cs ih =>
    have h := ih (n * 8 + (c.toNat - '0'.toNat))
    simp only [List.foldl_cons]
    omega

theorem digitVal_octal (c : Char) (h : isOctalDigit c = true) :
    strconv.digitVal c = some (c.toNat - '0'.toNat) ∧ c.toNat - '0'.toNat < 8 := by
  simp only [isOctalDigit, between, Bool.and_eq_true, decide_eq_true_eq] at h
  have h0 : '0'.toNat = 48 := by decide
  have h7 : '7'.toNat = 55 := by decide
  have h9 : '9'.toNat = 57 := by decide
  have hb : between '0' '9' c = true := by
    simp only [between, Bool.and_eq_true, decide_eq_true_eq]
    omega
  constructor
  · simp [strconv.digitVal, hb]
  · omega

theorem parseUintLoop_octal (cs : List Char) (n : Nat)
    (hd : cs.all isOctalDigit = true)
    (hv : cs.foldl (fun v c => v * 8 + (c.toNat - '0'.toNat)) n < 2 ^ 32) :
    strconv.parseUintLoop 8 (strconv.maxUint64 / 8 + 1) (2 ^ 32 - 1) cs n
      = .ok (cs.foldl (fun v c => v * 8 + (c.toNat - '0'.toNat)) n) := by
  induction cs generalizing n with
  | nil => rfl
  | cons c cs ih =>
    simp only [List.all_cons, Bool.and_eq_true] at hd
    obtain ⟨hc, hcs⟩ := hd
    obtain ⟨hdv, hlt⟩ := digitVal_octal c hc
    simp only [List.foldl_cons] at hv ⊢
    have hge := octal_foldl_ge cs (n * 8 + (c.toNat - '0'.toNat))
    have hn1 : n * 8 + (c.toNat - '0'.toNat) < 2 ^ 32 := lt_of_le_of_lt hge hv
    have hcut : strconv.maxUint64 / 8 + 1 = 2305843009213693952 := by decide
    have hmod0 : n * 8 % 2 ^ 64 = n * 8 := Nat.mod_eq_of_lt (by omega)
    have hmod1 : (n * 8 + (c.toNat - '0'.toNat)) % 2 ^ 64
        = n * 8 + (c.toNat - '0'.toNat) := Nat.mod_eq_of_lt (by omega)
    have hih := ih (n * 8 + (c.toNat - '0'.toNat)) hcs hv
    rw [strconv.parseUintLoop, hdv]
    simp only [hmod0, hmod1]
    rw [if_neg (by omega), if_neg (by omega), if_neg (by omega)]
    exact hih

/-- C10: for a `rawUnixSocketPermissions` that is a non-empty string of octal
digits whose base-8 value `v` is below `2^32`, `UnixSocketPermissions()` is
`v` masked with `0o777`, which is `v mod 512`. -/
theorem unixSocketPermissions_octal (c : GUIConfiguration)
    (hne : c.RawUnixSocketPermissions ≠ "")
    (hd : c.RawUnixSocketPermissions.data.all isOctalDigit = true)
    (hv : octalValue c.RawUnixSocketPermissions < 2 ^ 32) :
    UnixSocketPermissions c = octalValue c.RawUnixSocketPermissions &&& 0o777 ∧
    UnixSocketPermissions c = octalValue c.RawUnixSocketPermissions % 512 := by
  have hloop := parseUintLoop_octal c.RawUnixSocketPermissions.data 0 hd hv
  have hparse : strconv.ParseUint c.RawUnixSocketPermissions 8 32
      = .ok (octalValue c.RawUnixSocketPermissions) := by
    unfold strconv.ParseUint
    rw [if_neg hne, if_neg (by decide), if_neg (by decide)]
    exact hloop
  have hmask : ∀ v : Nat, v < 2 ^ 32 → (v % 2 ^ 32) &&& os.ModePerm = v % 512 := by
    intro v hlt
    rw [Nat.mod_eq_of_lt hlt]
    exact Nat.and_pow_two_sub_one_eq_mod v 9
  have hres : UnixSocketPermissions c = octalValue c.RawUnixSocketPermissions % 512 := by
    unfold UnixSocketPermissions
    rw [hparse]
    exact hmask _ hv
  refine ⟨?_, hres⟩
  rw [hres]
  exact (Nat.and_pow_two_sub_one_eq_mod _ 9).symm

theorem unixSocketPermissions_octal_witness :
    UnixSocketPermissions { GUIConfiguration.zero with RawUnixSocketPermissions := "755" }
      = 0o755 ∧
    UnixSocketPermissions
      { GUIConfiguration.zero with RawUnixSocketPermissions := "100644" } = 0o644 :=
  ⟨(unixSocketPermissions_octal
      { GUIConfiguration.zero with RawUnixSocketPermissions := "755" }
      (by decide) (by decide) (by decide)).2.trans (by decide),
   (unixSocketPermissions_octal
      { GUIConfiguration.zero with RawUnixSocketPermissions := "100644" }
      (by decide) (by decide) (by decide)).2.trans (by decide)⟩

/-! ### `strconv.ParseUint` on anything else -/

theorem digitVal_not_octal (c : Char) (h : isOctalDigit c = false) :
    strconv.digitVal c = none ∨ ∃ d, strconv.digitVal c = some d ∧ 8 ≤ d := by
  have h0 : '0'.toNat = 48 := by decide
  have h7 : '7'.toNat = 55 := by decide
  have h9 : '9'.toNat = 57 := by decide
  have ha : 'a'.toNat = 97 := by decide
  have hno : ¬ (48 ≤ c.toNat ∧ c.toNat ≤ 55) := by
    intro hc
    simp [isOctalDigit, between, h0, h7, hc.1, hc.2] at h
  unfold strconv.digitVal
  by_cases hb : between '0' '9' c = true
  · right
    refine ⟨c.toNat - '0'.toNat, by rw [if_pos hb], ?_⟩
    simp only [between, Bool.and_eq_true, decide_eq_true_eq, h0, h9] at hb
    omega
  · by_cases hl : 'a'.toNat ≤ strconv.lower c ∧ strconv.lower c ≤ 'z'.toNat
    · right
      refine ⟨strconv.lower c - 'a'.toNat + 10, by rw [if_neg hb, if_pos hl], ?_⟩
      omega
    · left
      rw [if_neg hb, if_neg hl]

theorem parseUintLoop_bad_digit (cs : List Char) (n : Nat)
    (hbad : ∃ ch ∈ cs, isOctalDigit ch = false) :
    ∃ e, strconv.parseUintLoop 8 (strconv.maxUint64 / 8 + 1) (2 ^ 32 - 1) cs n
      = .error e := by
  induction cs generalizing n with
  | nil =>
    obtain ⟨ch, hmem, _⟩ := hbad
    cases hmem
  | cons c cs ih =>
    rw [strconv.parseUintLoop]
    cases hdv : strconv.digitVal c with
    | none => exact ⟨_, rfl⟩
    | some d =>
      simp only []
      split_ifs with h1 h2 h3
      · exact ⟨_, rfl⟩
      · exact ⟨_, rfl⟩
      · exact ⟨_, rfl⟩
      · apply ih
        obtain ⟨ch, hmem, hch⟩ := hbad
        rcases List.mem_cons.1 hmem with rfl | hmem
        · rcases digitVal_not_octal ch hch with hnone | ⟨d2, hd2, hge⟩
          · rw [hnone] at hdv
            cases hdv
          · rw [hd2] at hdv
            cases hdv
            exact absurd hge (by omega)
        · exact ⟨ch, hmem, hch⟩

theorem parseUintLoop_overflow (cs : List Char) (n : Nat)
    (hd : cs.all isOctalDigit = true) (hn : n < 2 ^ 32)
    (hv : 2 ^ 32 ≤ cs.foldl (fun v c => v * 8 + (c.toNat - '0'.toNat)) n) :
    ∃ e, strconv.parseUintLoop 8 (strconv.maxUint64 / 8 + 1) (2 ^ 32 - 1) cs n
      = .error e := by
  induction cs generalizing n with
  | nil =>
    simp only [List.foldl_nil] at hv
    omega
  | cons c cs ih =>
    simp only [List.all_cons, Bool.and_eq_true] at hd
    obtain ⟨hc, hcs⟩ := hd
    obtain ⟨hdv, hlt⟩ := digitVal_octal c hc
    simp only [List.foldl_cons] at hv
    have hmod0 : n * 8 % 2 ^ 64 = n * 8 := Nat.mod_eq_of_lt (by omega)
    have hmod1 : (n * 8 + (c.toNat - '0'.toNat)) % 2 ^ 64
        = n * 8 + (c.toNat - '0'.toNat) := Nat.mod_eq_of_lt (by omega)
    rw [strconv.parseUintLoop, hdv]
    simp only [hmod0, hmod1]
    split_ifs with h1 h2 h3
    · exact ⟨_, rfl⟩
    · exact ⟨_, rfl⟩
    · exact ⟨_, rfl⟩
    · exact ih _ hcs (by omega) hv

/-- C11: `UnixSocketPermissions()` is total, and for a
`rawUnixSocketPermissions` that is no base-8 unsigned 32-bit literal (the
empty string, a string with a character outside `0`-`7`, or an octal string
whose value is `2^32` or more) it is zero. -/
theorem unixSocketPermissions_invalid (c : GUIConfiguration)
    (h : c.RawUnixSocketPermissions = "" ∨
      (∃ ch ∈ c.RawUnixSocketPermissions.data, isOctalDigit ch = false) ∨
      (c.RawUnixSocketPermissions.data.all isOctalDigit = true ∧
        2 ^ 32 ≤ octalValue c.RawUnixSocketPermissions)) :
    UnixSocketPermissions c = 0 := by
  have herr : ∃ e, strconv.ParseUint c.RawUnixSocketPermissions 8 32 = .error e := by
    unfold strconv.ParseUint
    by_cases hne : c.RawUnixSocketPermissions = ""
    · exact ⟨_, if_pos hne⟩
    · rw [if_neg hne, if_neg (by decide), if_neg (by decide)]
      rcases h with h | h | ⟨hd, hv⟩
      · exact absurd h hne
      · exact parseUintLoop_bad_digit _ 0 h
      · exact parseUintLoop_overflow _ 0 hd (by decide) hv
  obtain ⟨e, he⟩ := herr
  unfold UnixSocketPermissions
  rw [he]

theorem unixSocketPermissions_invalid_witness :
    UnixSocketPermissions { GUIConfiguration.zero with RawUnixSocketPermissions := "" }
      = 0 ∧
    UnixSocketPermissions
      { GUIConfiguration.zero with RawUnixSocketPermissions := "bogus" } = 0 ∧
    UnixSocketPermissions
      { GUIConfiguration.zero with RawUnixSocketPermissions := "789" } = 0 ∧
    UnixSocketPermissions
      { GUIConfiguration.zero with RawUnixSocketPermissions := "40000000000" } = 0 :=
  ⟨unixSocketPermissions_invalid _ (Or.inl rfl),
   unixSocketPermissions_invalid
      { GUIConfiguration.zero with RawUnixSocketPermissions := "bogus" }
      (Or.inr (Or.inl ⟨'b', by decide, by decide⟩)),
   unixSocketPermissions_invalid
      { GUIConfiguration.zero with RawUnixSocketPermissions := "789" }
      (Or.inr (Or.inl ⟨'8', by decide, by decide⟩)),
   unixSocketPermissions_invalid
      { GUIConfiguration.zero with RawUnixSocketPermissions := "40000000000" }
      (Or.inr (Or.inr ⟨by decide, by decide⟩))⟩

/-! ### `URL()` -/

theorem address_of_empty_override (c : GUIConfiguration) (getenv : String → String)
    (h : getenv "STGUIADDRESS" = "") : Address c getenv = c.RawAddress := by
  simp [Address, h]

theorem useTLS_of_empty_override (c : GUIConfiguration) (getenv : String → String)
    (h : getenv "STGUIADDRESS" = "") : UseTLS c getenv = c.RawUseTLS := by
  simp [UseTLS, h]

theorem shouldEscape_digit (c : Char) (mode : url.encoding)
    (h : between '0' '9' c = true) : url.shouldEscape c mode = false := by
  simp [url.shouldEscape, h]

theorem escapeBuild_safe (mode : url.encoding) (l : List Char)
    (h : ∀ c ∈ l, url.shouldEscape c mode = false) : url.escapeBuild mode l = l := by
  induction l with
  | nil => rfl
  | cons c cs ih =>
    have hc := h c (List.mem_cons_self c cs)
    rw [url.escapeBuild, hc, ih (fun d hd => h d (List.mem_cons_of_mem c hd))]
    simp

theorem escape_host_safe (s : String)
    (h : ∀ c ∈ s.data, url.shouldEscape c url.encoding.encodeHost = false) :
    url.escape s url.encoding.encodeHost = s := by
  unfold url.escape
  rw [escapeBuild_safe _ _ h]

theorem hasPrefix_append (a b : String) : strings.HasPrefix (a ++ b) a = true := by
  unfold strings.HasPrefix
  rw [String.data_append, List.isPrefixOf_iff_prefix]
  exact List.prefix_append _ _

/-- `String()` of the URL that `URL()` builds: a non-empty scheme, a host and
the path `/`. -/
theorem url_string_root (scheme host : String) (hs : scheme ≠ "") :
    url.URL.String { url.URL.new with Scheme := scheme, Host := host, Path := "/" }
      = scheme ++ "://" ++ (if host ≠ "" then url.escape host url.encoding.encodeHost else "")
          ++ "/" := by
  have hpath : url.URL.EscapedPath
      { url.URL.new with Scheme := scheme, Host := host, Path := "/" } = "/" := by
    rfl
  unfold url.URL.String
  simp only [hpath]
  have hidx : strings.Index "/" ":" = -1 := by decide
  have happ : ∀ t : String, t ++ ":" ++ "//" = t ++ "://" := by
    intro t
    rw [String.append_assoc]
    rfl
  by_cases hh : host = ""
  · simp [url.URL.new, hs, hidx, hh, happ]
  · simp [url.URL.new, hs, hidx, hh, happ]

/-- The second branch of `URL()` in closed form. -/
theorem url_of_host (c : GUIConfiguration) (getenv : String → String)
    (hraw : strings.HasPrefix c.RawAddress "/" = false) :
    URL c getenv =
      (if UseTLS c getenv then "https" else "http") ++ "://" ++
        (if urlHost (Address c getenv) ≠ "" then
          url.escape (urlHost (Address c getenv)) url.encoding.encodeHost else "") ++ "/" := by
  unfold URL
  rw [hraw]
  by_cases ht : UseTLS c getenv = true
  · simp only [ht]
    exact url_string_root "https" _ (by decide)
  · simp only [ht]
    exact url_string_root "http" _ (by decide)

/-- `URL()` without override and without TLS, when the rewritten host is the
byte list `h` and no byte of `h` needs escaping in a host. -/
theorem url_of_safe_host (c : GUIConfiguration) (getenv : String → String)
    (h : List Char)
    (hov : getenv "STGUIADDRESS" = "") (htls : c.RawUseTLS = false)
    (hraw : strings.HasPrefix c.RawAddress "/" = false)
    (hhost : urlHost c.RawAddress = ⟨h⟩) (hne : h ≠ [])
    (hsafe : ∀ ch ∈ h, url.shouldEscape ch url.encoding.encodeHost = false) :
    URL c getenv = "http://" ++ ⟨h⟩ ++ "/" := by
  rw [url_of_host c getenv hraw, useTLS_of_empty_override c getenv hov, htls,
    address_of_empty_override c getenv hov, hhost, escape_host_safe ⟨h⟩ hsafe]
  have hne2 : (⟨h⟩ : String) ≠ "" := by
    intro heq
    exact hne (congrArg String.data heq)
  rw [if_pos hne2]
  rfl

theorem safe_host_bytes (pre ps : List Char)
    (hpre : ∀ ch ∈ pre, url.shouldEscape ch url.encoding.encodeHost = false)
    (hp : ps.all (between '0' '9') = true) :
    ∀ ch ∈ pre ++ ps, url.shouldEscape ch url.encoding.encodeHost = false := by
  intro ch hch
  rcases List.mem_append.1 hch with h1 | h2
  · exact hpre ch h1
  · exact shouldEscape_digit ch _ (List.all_eq_true.1 hp ch h2)

/-- C12: when `rawAddress` starts with `/`, `URL()` is `"unix://"` followed
by `rawAddress`, whatever `STGUIADDRESS` and `rawUseTLS` are. -/
theorem url_unix_socket (c : GUIConfiguration) (getenv : String → String)
    (h : strings.HasPrefix c.RawAddress "/" = true) :
    URL c getenv = "unix://" ++ c.RawAddress := by
  unfold URL
  rw [if_pos h]

theorem url_unix_socket_witness :
    URL { GUIConfiguration.zero with RawAddress := "/var/run/x.sock", RawUseTLS := true }
      (envAddress "https://203.0.113.5:9090") = "unix:///var/run/x.sock" :=
  (url_unix_socket _ (envAddress "https://203.0.113.5:9090") (by decide)).trans
    (by decide)

/-- C13: with no override and `rawUseTLS` false, for a port `p` of decimal
digits, `URL()` is `http://127.0.0.1:p/` for the raw addresses `:p` and
`0.0.0.0:p`, and `http://[::1]:p/` for the raw address `[::]:p`. -/
theorem url_bind_all_loopback (c : GUIConfiguration) (getenv : String → String)
    (p : String)
    (hov : getenv "STGUIADDRESS" = "") (htls : c.RawUseTLS = false)
    (hp : p.data.all (between '0' '9') = true) :
    (c.RawAddress = ":" ++ p → URL c getenv = "http://127.0.0.1:" ++ p ++ "/") ∧
    (c.RawAddress = "0.0.0.0:" ++ p → URL c getenv = "http://127.0.0.1:" ++ p ++ "/") ∧
    (c.RawAddress = "[::]:" ++ p → URL c getenv = "http://[::1]:" ++ p ++ "/") := by
  obtain ⟨ps⟩ := p
  have h4 : ∀ ch ∈ "127.0.0.1:".data,
      url.shouldEscape ch url.encoding.encodeHost = false := by decide
  have h6 : ∀ ch ∈ "[::1]:".data,
      url.shouldEscape ch url.encoding.encodeHost = false := by decide
  refine ⟨?_, ?_, ?_⟩
  · intro hraw
    have hraw2 : c.RawAddress = ⟨':' :: ps⟩ := hraw
    have hno : strings.HasPrefix c.RawAddress "/" = false := by
      rw [hraw2]; rfl
    have hhost : urlHost c.RawAddress = ⟨"127.0.0.1:".data ++ ps⟩ := by
      rw [hraw2]
      simp [urlHost, strings.HasPrefix]
      rfl
    exact url_of_safe_host c getenv _ hov htls hno hhost (by simp)
      (safe_host_bytes _ ps h4 hp)
  · intro hraw
    have hraw2 : c.RawAddress = ⟨"0.0.0.0:".data ++ ps⟩ := hraw
    have hno : strings.HasPrefix c.RawAddress "/" = false := by
      rw [hraw2]; rfl
    have hhost : urlHost c.RawAddress = ⟨"127.0.0.1:".data ++ ps⟩ := by
      rw [hraw2]
      simp [urlHost, strings.HasPrefix, sliceFrom]
      rfl
    exact url_of_safe_host c getenv _ hov htls hno hhost (by simp)
      (safe_host_bytes _ ps h4 hp)
  · intro hraw
    have hraw2 : c.RawAddress = ⟨"[::]:".data ++ ps⟩ := hraw
    have hno : strings.HasPrefix c.RawAddress "/" = false := by
      rw [hraw2]; rfl
    have hhost : urlHost c.RawAddress = ⟨"[::1]:".data ++ ps⟩ := by
      rw [hraw2]
      simp [urlHost, strings.HasPrefix, sliceFrom]
      rfl
    exact url_of_safe_host c getenv _ hov htls hno hhost (by simp)
      (safe_host_bytes _ ps h6 hp)

theorem url_bind_all_loopback_witness :
    URL { GUIConfiguration.zero with RawAddress := ":8384" } envEmpty
      = "http://127.0.0.1:8384/" ∧
    URL { GUIConfiguration.zero with RawAddress := "0.0.0.0:8384" } envEmpty
      = "http://127.0.0.1:8384/" ∧
    URL { GUIConfiguration.zero with RawAddress := "[::]:8384" } envEmpty
      = "http://[::1]:8384/" :=
  ⟨(url_bind_all_loopback { GUIConfiguration.zero with RawAddress := ":8384" }
      envEmpty "8384" rfl rfl (by decide)).1 rfl,
   (url_bind_all_loopback { GUIConfiguration.zero with RawAddress := "0.0.0.0:8384" }
      envEmpty "8384" rfl rfl (by decide)).2.1 rfl,
   (url_bind_all_loopback { GUIConfiguration.zero with RawAddress := "[::]:8384" }
      envEmpty "8384" rfl rfl (by decide)).2.2 rfl⟩

/-- C14: when `rawAddress` does not start with `/`, `URL()` begins with
`https://` if `UseTLS()` holds and with `http://` if it does not, `UseTLS()`
being taken on the same record and environment. -/
theorem url_scheme_follows_useTLS (c : GUIConfiguration) (getenv : String → String)
    (hraw : strings.HasPrefix c.RawAddress "/" = false) :
    (UseTLS c getenv = true → strings.HasPrefix (URL c getenv) "https://" = true) ∧
    (UseTLS c getenv = false → strings.HasPrefix (URL c getenv) "http://" = true) := by
  have hurl := url_of_host c getenv hraw
  constructor
  · intro ht
    rw [hurl, ht, if_pos rfl, String.append_assoc, String.append_assoc]
    exact hasPrefix_append "https://" _
  · intro ht
    rw [hurl, ht, if_neg (by decide), String.append_assoc, String.append_assoc]
    exact hasPrefix_append "http://" _

theorem url_scheme_follows_useTLS_witness :
    strings.HasPrefix
      (URL { GUIConfiguration.zero with RawAddress := "127.0.0.1:8384", RawUseTLS := false }
        (envAddress "https://203.0.113.5:9090")) "https://" = true ∧
    strings.HasPrefix
      (URL { GUIConfiguration.zero with RawAddress := "127.0.0.1:8384", RawUseTLS := true }
        (envAddress "http://203.0.113.5:9090")) "http://" = true :=
  ⟨(url_scheme_follows_useTLS _ (envAddress "https://203.0.113.5:9090") (by decide)).1
      (by decide),
   (url_scheme_follows_useTLS _ (envAddress "http://203.0.113.5:9090") (by decide)).2
      (by decide)⟩

/-- C16: a `STGUIADDRESS` that contains `/` and that `url.Parse` rejects is
returned by `Address()` as it is: neither `rawAddress` nor an error. -/
theorem address_unparsable_override (c : GUIConfiguration) (getenv : String → String)
    (e : String)
    (hslash : strings.Contains (getenv "STGUIADDRESS") "/" = true)
    (hparse : url.Parse (getenv "STGUIADDRESS") = .error e) :
    Address c getenv = getenv "STGUIADDRESS" := by
  have hne := contains_slash_ne_empty _ hslash
  simp [Address, hne, hslash, hparse]

theorem address_unparsable_override_witness :
    Address { GUIConfiguration.zero with RawAddress := "127.0.0.1:8384" }
      (envAddress ":/foo") = ":/foo" :=
  address_unparsable_override _ (envAddress ":/foo")
    "parse :/foo: missing protocol scheme" (by decide) rfl

/-- C17: for a `STGUIADDRESS` that contains `/` and that `url.Parse` rejects,
`Network()` is `"tcp"`, also when `rawAddress` starts with `/`. -/
theorem network_unparsable_override (c : GUIConfiguration) (getenv : String → String)
    (e : String)
    (hslash : strings.Contains (getenv "STGUIADDRESS") "/" = true)
    (hparse : url.Parse (getenv "STGUIADDRESS") = .error e) :
    Network c getenv = "tcp" := by
  simp [Network, hslash, hparse]

theorem network_unparsable_override_witness :
    strings.HasPrefix "/var/run/x.sock" "/" = true ∧
    Network { GUIConfiguration.zero with RawAddress := "/var/run/x.sock" }
      (envAddress ":/foo") = "tcp" :=
  ⟨by decide,
   network_unparsable_override _ (envAddress ":/foo")
    "parse :/foo: missing protocol scheme" (by decide) rfl⟩

/-- C18: for a `STGUIADDRESS` that contains `/`, that `url.Parse` accepts and
whose parsed scheme does not start with `unix`, `Network()` is `"unix"`
exactly when `rawAddress` starts with `/` and `"tcp"` otherwise; the host of
the override is not looked at. -/
theorem network_other_scheme_override (c : GUIConfiguration)
    (getenv : String → String) (u : url.URL)
    (hslash : strings.Contains (getenv "STGUIADDRESS") "/" = true)
    (hparse : url.Parse (getenv "STGUIADDRESS") = .ok u)
    (hscheme : strings.HasPrefix u.Scheme "unix" = false) :
    (Network c getenv = "unix" ↔ strings.HasPrefix c.RawAddress "/" = true) ∧
    (strings.HasPrefix c.RawAddress "/" = false → Network c getenv = "tcp") ∧
    Network c getenv = Network c envEmpty := by
  have h0 : strings.Contains (envEmpty "STGUIADDRESS") "/" = false := by decide
  by_cases hraw : strings.HasPrefix c.RawAddress "/" = true
  · simp [Network, hslash, hparse, hscheme, h0, hraw]
  · simp [Network, hslash, hparse, hscheme, h0, hraw]

theorem network_other_scheme_override_witness :
    Network { GUIConfiguration.zero with RawAddress := "/var/run/x.sock" }
      (envAddress "http://h:1") = "unix" ∧
    Network { GUIConfiguration.zero with RawAddress := "127.0.0.1:8384" }
      (envAddress "http://h:1") = "tcp" :=
  ⟨(network_other_scheme_override _ (envAddress "http://h:1")
      { url.URL.new with Scheme := "http", Host := "h:1" }
      (by decide) rfl (by decide)).1.2 (by decide),
   (network_other_scheme_override _ (envAddress "http://h:1")
      { url.URL.new with Scheme := "http", Host := "h:1" }
      (by decide) rfl (by decide)).2.1 (by decide)⟩

/-- C19, as the code has it: for a `STGUIADDRESS` that contains `/`, that
`url.Parse` accepts and whose parsed scheme starts with neither `http` nor
`unix`, `Address()` is the host of the parsed override; `rawAddress` is not
used. -/
theorem address_unknown_scheme_override (c : GUIConfiguration)
    (getenv : String → String) (u : url.URL)
    (hslash : strings.Contains (getenv "STGUIADDRESS") "/" = true)
    (hparse : url.Parse (getenv "STGUIADDRESS") = .ok u)
    (_hhttp : strings.HasPrefix u.Scheme "http" = false)
    (hunix : strings.HasPrefix u.Scheme "unix" = false) :
    Address c getenv = u.Host := by
  have hne := contains_slash_ne_empty _ hslash
  simp [Address, hne, hslash, hparse, hunix]

theorem address_unknown_scheme_override_witness :
    Address { GUIConfiguration.zero with RawAddress := "127.0.0.1:8384" }
      (envAddress "gopher://example.org:70/1") = "example.org:70" :=
  address_unknown_scheme_override _ (envAddress "gopher://example.org:70/1")
    { url.URL.new with Scheme := "gopher", Host := "example.org:70", Path := "/1" }
    (by decide) rfl (by decide) (by decide)

/-- C19 as stated fails: with the well-formed override `ftp://host:21`, whose
scheme `ftp` matches none of the known prefixes, `Address()` is `host:21` and
not the `rawAddress` of the record. -/
theorem address_unknown_scheme_counterexample :
    url.Parse "ftp://host:21"
      = .ok { url.URL.new with Scheme := "ftp", Host := "host:21" } ∧
    Address { GUIConfiguration.zero with RawAddress := "127.0.0.1:8384" }
      (envAddress "ftp://host:21") = "host:21" ∧
    Address { GUIConfiguration.zero with RawAddress := "127.0.0.1:8384" }
      (envAddress "ftp://host:21")
      ≠ GUIConfiguration.RawAddress
          { GUIConfiguration.zero with RawAddress := "127.0.0.1:8384" } :=
  ⟨rfl, by decide, by decide⟩

/-- C20: with no override the three transport views agree: `Network()` is
`"unix"` exactly when `Address()` starts with `/`, which is exactly when
`URL()` is `"unix://"` followed by `Address()`; in every other case
`Network()` is `"tcp"`. -/
theorem transport_views_agree (c : GUIConfiguration) (getenv : String → String)
    (hov : getenv "STGUIADDRESS" = "") :
    (Network c getenv = "unix" ↔ strings.HasPrefix (Address c getenv) "/" = true) ∧
    (strings.HasPrefix (Address c getenv) "/" = true ↔
      URL c getenv = "unix://" ++ Address c getenv) ∧
    (strings.HasPrefix (Address c getenv) "/" = false → Network c getenv = "tcp") := by
  have haddr := address_of_empty_override c getenv hov
  have h0 : strings.Contains "" "/" = false := by decide
  rw [haddr]
  by_cases hraw : strings.HasPrefix c.RawAddress "/" = true
  · refine ⟨?_, ?_, ?_⟩
    · simp [Network, hov, h0, hraw]
    · simp [URL, hraw]
    · simp [hraw]
  · have hraw2 : strings.HasPrefix c.RawAddress "/" = false := by
      simpa using hraw
    have hurl := url_of_host c getenv hraw2
    have hhead : (URL c getenv).data.head? = some 'h' := by
      rw [hurl]
      by_cases ht : UseTLS c getenv = true
      · simp [ht, String.data_append]
      · simp [ht, String.data_append]
    refine ⟨?_, ?_, ?_⟩
    · simp [Network, hov, h0, hraw]
    · constructor
      · intro h
        exact absurd h hraw
      · intro h
        rw [h] at hhead
        simp [String.data_append] at hhead
    · intro _
      simp [Network, hov, h0, hraw]

theorem transport_views_agree_witness :
    (Network { GUIConfiguration.zero with RawAddress := "/var/run/x.sock" } envEmpty
        = "unix" ∧
      URL { GUIConfiguration.zero with RawAddress := "/var/run/x.sock" } envEmpty
        = "unix:///var/run/x.sock") ∧
    Network { GUIConfiguration.zero with RawAddress := "127.0.0.1:8384" } envEmpty
      = "tcp" :=
  ⟨⟨(transport_views_agree _ envEmpty rfl).1.2 (by decide),
    (transport_views_agree
      { GUIConfiguration.zero with RawAddress := "/var/run/x.sock" } envEmpty rfl).2.1.1
      (by decide)⟩,
   (transport_views_agree _ envEmpty rfl).2.2 (by decide)⟩

/-! ### `url.Parse` on an absolute path -/

theorem indexAux_ge (cs sub : List Char) (i : Nat) :
    strings.indexAux cs sub i = -1 ∨ (i : Int) ≤ strings.indexAux cs sub i := by
  induction cs generalizing i with
  | nil =>
    unfold strings.indexAux
    split_ifs
    · right; exact le_refl _
    · left; rfl
  | cons c cs ih =>
    unfold strings.indexAux
    split_ifs
    · right; exact le_refl _
    · rcases ih (i + 1) with h | h
      · left; exact h
      · right; omega

theorem head_take_ne (rest : List Char) (k : Nat) (h : rest.head? ≠ some '/') :
    (rest.take k).head? ≠ some '/' := by
  cases rest with
  | nil => simp
  | cons a l =>
    cases k with
    | zero => simp
    | succ k => simpa using h

theorem setPath_fields (u0 u : url.URL) (p : String)
    (h : url.URL.setPath u0 p = .ok u) : u.Scheme = u0.Scheme ∧ u.Host = u0.Host := by
  unfold url.URL.setPath at h
  split at h
  · cases h
  · split_ifs at h
    · cases h; exact ⟨rfl, rfl⟩
    · cases h; exact ⟨rfl, rfl⟩

theorem split_bare (s : String) (sep : Char) (hsep : sep ≠ '/') (rest : List Char)
    (h1 : s.data = '/' :: rest) (h2 : rest.head? ≠ some '/') :
    ∃ rest2, (url.split s ⟨[sep]⟩ true).1.data = '/' :: rest2 ∧ rest2.head? ≠ some '/' := by
  unfold url.split
  have hidx : strings.Index s ⟨[sep]⟩ = strings.indexAux rest [sep] 1 := by
    unfold strings.Index
    rw [h1, strings.indexAux]
    simp [hsep]
  rw [hidx]
  rcases indexAux_ge rest [sep] 1 with h | h
  · rw [h]
    exact ⟨rest, h1, h2⟩
  · have hnl : ¬ strings.indexAux rest [sep] 1 < 0 := by omega
    simp only [hnl, if_false, if_true]
    refine ⟨rest.take ((strings.indexAux rest [sep] 1).toNat - 1), ?_, head_take_ne _ _ h2⟩
    unfold sliceTo
    simp only [h1]
    obtain ⟨k, hk⟩ : ∃ k, (strings.indexAux rest [sep] 1).toNat = k + 1 :=
      ⟨(strings.indexAux rest [sep] 1).toNat - 1, by omega⟩
    rw [hk]
    simp

theorem getscheme_bare (s : String) (rest : List Char) (h1 : s.data = '/' :: rest) :
    url.getscheme s = .ok ("", s) := by
  have hb1 : between 'a' 'z' '/' = false := by decide
  have hb2 : between 'A' 'Z' '/' = false := by decide
  have hb3 : between '0' '9' '/' = false := by decide
  unfold url.getscheme
  rw [h1, url.getschemeLoop]
  simp [hb1, hb2, hb3]

theorem hasPrefix_bare (s : String) (rest : List Char)
    (h1 : s.data = '/' :: rest) (h2 : rest.head? ≠ some '/') :
    strings.HasPrefix s "/" = true ∧ strings.HasPrefix s "//" = false := by
  unfold strings.HasPrefix
  rw [h1]
  constructor
  · simp
  · cases rest with
    | nil => rfl
    | cons a l =>
      have hne : a ≠ '/' := by simpa using h2
      simp [List.isPrefixOf, Ne.symm hne]

theorem parse_bare (s : String) (rest : List Char)
    (h1 : s.data = '/' :: rest) (h2 : rest.head? ≠ some '/')
    (u : url.URL) (hp : url.parse s false = .ok u) :
    u.Scheme = "" ∧ u.Host = "" := by
  have hgs := getscheme_bare s rest h1
  have hlow : strings.ToLower "" = "" := rfl
  have hstar : s ≠ "*" := by
    intro h
    rw [h] at h1
    cases h1
  unfold url.parse at hp
  by_cases hq : strings.HasSuffix s "?" = true ∧ strings.Count s '?' = 1
  · simp only [hgs, hlow, hq, hstar, and_self, if_true, if_false] at hp
    have hrest : rest ≠ [] := by
      intro hnil
      have hs : s = "/" := String.ext_iff.2 (by rw [h1, hnil])
      rw [hs] at hq
      exact absurd hq.1 (by decide)
    obtain ⟨k, hk⟩ : ∃ k, rest.length = k + 1 :=
      ⟨rest.length - 1, by
        have := List.length_pos.2 hrest
        omega⟩
    have hdata : (sliceTo s (s.length - 1)).data = '/' :: rest.take k := by
      unfold sliceTo
      simp [String.length, h1, hk]
    obtain ⟨hpre1, hpre2⟩ := hasPrefix_bare _ _ hdata (head_take_ne rest k h2)
    simp only [hpre1, hpre2, Bool.not_true, Bool.false_eq_true, false_and, and_false,
      if_false] at hp
    split_ifs at hp
    exact setPath_fields _ _ _ hp
  · simp only [hgs, hlow, hq, hstar, and_self, if_true, if_false] at hp
    obtain ⟨r2, hr1, hr2⟩ := split_bare s '?' (by decide) rest h1 h2
    obtain ⟨hpre1, hpre2⟩ := hasPrefix_bare _ _ hr1 hr2
    have hpre1b : strings.HasPrefix (url.split s "?" true).1 "/" = true := hpre1
    have hpre2b : strings.HasPrefix (url.split s "?" true).1 "//" = false := hpre2
    simp only [hpre1b, hpre2b, Bool.not_true, Bool.false_eq_true, false_and, and_false,
      if_false] at hp
    split_ifs at hp
    exact setPath_fields _ _ _ hp

theorem Parse_bare (s : String) (rest : List Char)
    (h1 : s.data = '/' :: rest) (h2 : rest.head? ≠ some '/')
    (u : url.URL) (hp : url.Parse s = .ok u) :
    u.Scheme = "" ∧ u.Host = "" := by
  obtain ⟨r2, hr1, hr2⟩ := split_bare s '#' (by decide) rest h1 h2
  have hr1b : (url.split s "#" true).1.data = '/' :: r2 := hr1
  unfold url.Parse at hp
  simp only [] at hp
  split at hp
  · cases hp
  · rename_i url0 hparse
    have hf := parse_bare _ r2 hr1b hr2 url0 hparse
    split_ifs at hp
    · cases hp
      exact hf
    · split at hp
      · cases hp
      · cases hp
        exact hf

theorem bare_path_data (s : String) (h : isBareSocketPath s = true) :
    ∃ rest, s.data = '/' :: rest ∧ rest.head? ≠ some '/' := by
  obtain ⟨l⟩ := s
  simp only [isBareSocketPath, strings.HasPrefix, Bool.and_eq_true,
    Bool.not_eq_true'] at h
  obtain ⟨ha, hb⟩ := h
  cases l with
  | nil => simp at ha
  | cons a l =>
    have hhead : a = '/' := by
      have h0 : '/' = a := by simpa [List.isPrefixOf] using ha
      exact h0.symm
    subst hhead
    refine ⟨l, rfl, ?_⟩
    cases l with
    | nil => simp
    | cons b l =>
      intro hb2
      have hb3 : b = '/' := by simpa using hb2
      subst hb3
      simp [List.isPrefixOf] at hb

theorem contains_slash_of_data (s : String) (rest : List Char)
    (h : s.data = '/' :: rest) : strings.Contains s "/" = true := by
  unfold strings.Contains
  rw [h, strings.containsAux]
  simp [List.isPrefixOf]

/-- C15, as the code has it: a `STGUIADDRESS` that is an absolute path (one
leading `/`) goes through `url.Parse`; when the parser accepts it `Address()`
is the empty string, the host of a URL without authority, and only when the
parser rejects it is the override returned unchanged. -/
theorem address_bare_path_override (c : GUIConfiguration) (getenv : String → String)
    (hbare : isBareSocketPath (getenv "STGUIADDRESS") = true) :
    (∀ u, url.Parse (getenv "STGUIADDRESS") = .ok u → Address c getenv = "") ∧
    (∀ e, url.Parse (getenv "STGUIADDRESS") = .error e →
      Address c getenv = getenv "STGUIADDRESS") := by
  obtain ⟨rest, h1, h2⟩ := bare_path_data _ hbare
  have hslash := contains_slash_of_data _ rest h1
  have hne := contains_slash_ne_empty _ hslash
  constructor
  · intro u hu
    obtain ⟨hscheme, hhost⟩ := Parse_bare _ rest h1 h2 u hu
    have hunix : strings.HasPrefix u.Scheme "unix" = false := by
      rw [hscheme]; rfl
    simp [Address, hne, hslash, hu, hunix, hhost]
  · intro e he
    simp [Address, hne, hslash, he]

theorem address_bare_path_override_witness :
    Address { GUIConfiguration.zero with RawAddress := "127.0.0.1:8384" }
      (envAddress "/tmp/gui.sock") = "" ∧
    Address { GUIConfiguration.zero with RawAddress := "127.0.0.1:8384" }
      (envAddress "/tmp/%zz") = "/tmp/%zz" :=
  ⟨(address_bare_path_override _ (envAddress "/tmp/gui.sock") (by decide)).1
      { url.URL.new with Path := "/tmp/gui.sock" } rfl,
   (address_bare_path_override _ (envAddress "/tmp/%zz") (by decide)).2
      "parse /tmp/%zz: invalid URL escape %zz" rfl⟩

/-- C15 as stated fails: the bare socket path `/tmp/gui.sock` is a non-empty
override without scheme, yet `Address()` is the empty string and not the
override. -/
theorem address_bare_path_counterexample :
    isBareSocketPath "/tmp/gui.sock" = true ∧
    Address GUIConfiguration.zero (envAddress "/tmp/gui.sock") = "" ∧
    Address GUIConfiguration.zero (envAddress "/tmp/gui.sock") ≠ "/tmp/gui.sock" :=
  ⟨by decide, by decide, by decide⟩
